import Mathlib

/-!
Shallow embedding of the cyber web framework's routing, middleware-composition
and timeout-retry subsystems, translated from the Go sources:
the trie router (`StandardRouter` in example/main.go), the middleware chain and
manager (`MiddlewareChain` / `MiddlewareManager`), and the timeout middleware
(`Timeout` / `doubleTimeout` in middleware/timeout_middleware.go).

Handlers and middlewares are identified by natural-number tags where only their
identity matters; where execution order matters (chain application) they are
modelled as state transformers.  Go strings are Lean `String`s; Go `map`
lookups/stores become association-list operations (lookup is key-based, so the
list order is irrelevant except where the Go code ranges over a map, in which
case the list order models the map's iteration order).  Durations are natural
numbers of seconds.
-/

namespace Cyber

/-- Character-level model of Go `strings.Split(s, sep)` for a one-character
separator: `strings.Split("", "/") = [""]`, `strings.Split("/a", "/") = ["", "a"]`. -/
def splitOnChar (c : Char) : List Char → List (List Char)
  | [] => [[]]
  | a :: rest =>
    let r := splitOnChar c rest
    if a = c then [] :: r
    else
      match r with
      | h :: t => (a :: h) :: t
      | [] => [[a]]

/-- Go `strings.Split(s, "/")`. -/
def goSplit (s : String) : List String :=
  (splitOnChar '/' s.data).map String.mk

/-- Go `strings.HasPrefix(s, pre)`. -/
def goStartsWith (s pre : String) : Bool :=
  pre.data.isPrefixOf s.data

/-- Go `strings.HasSuffix(s, suf)`. -/
def goEndsWith (s suf : String) : Bool :=
  suf.data.isSuffixOf s.data

/-- Go `strings.TrimPrefix(part, ":")` as used in `AddRoute` (drops one leading colon). -/
def trimColon (s : String) : String :=
  match s.data with
  | ':' :: rest => String.mk rest
  | l => String.mk l

/-- Association-list lookup, modelling a Go `m[k]` read (`v, ok := m[k]`). -/
def assocGet {α : Type} : List (String × α) → String → Option α
  | [], _ => none
  | (k', v) :: rest, k => if k' = k then some v else assocGet rest k

/-- Association-list store, modelling a Go `m[k] = v` write (overwrite or insert). -/
def assocPut {α : Type} : List (String × α) → String → α → List (String × α)
  | [], k, v => [(k, v)]
  | (k', v') :: rest, k, v =>
    if k' = k then (k, v) :: rest else (k', v') :: assocPut rest k v

/-- Trie node (`node` in example/main.go): children keyed by segment (parameter
children all live under the canonical key `":"`, wildcards under `"*"`),
an optional handler (handlers are numeric tags), the registered pattern, the
parameter/wildcard flags and the captured parameter name. -/
inductive Node where
  | mk (children : List (String × Node)) (handler : Option Nat) (pattern : String)
       (isParameter : Bool) (isWildcard : Bool) (paramName : String)

def Node.children : Node → List (String × Node)
  | .mk c _ _ _ _ _ => c

def Node.handler : Node → Option Nat
  | .mk _ h _ _ _ _ => h

def Node.paramName : Node → String
  | .mk _ _ _ _ _ p => p

/-- `newNode()`. -/
def newNode : Node := .mk [] none "" false false ""

/-- Sets `current.handler = handler; current.pattern = pattern` on a node. -/
def Node.setHandler : Node → Nat → String → Node
  | .mk c _ _ ip iw pn, h, pat => .mk c (some h) pat ip iw pn

/-- The per-segment insertion loop of `AddRoute`: walks/creates child nodes for
each nonempty part; flags are set only when a child is created; the handler and
pattern are attached when the current part is the last element of `parts`
(an empty part is skipped by `continue`, so a trailing empty part means the
handler is never attached). -/
def insertParts (pat : String) (h : Nat) : Node → List String → Node
  | n, [] => n
  | n, part :: rest =>
    if part = "" then insertParts pat h n rest
    else
      let isParam := goStartsWith part ":"
      let isWild := part = "*"
      let pName := if isParam then trimColon part else ""
      let key := if isParam then ":" else part
      let child :=
        match assocGet n.children key with
        | some c => c
        | none => Node.mk [] none "" isParam isWild pName
      let child' :=
        if rest = [] then child.setHandler h pat else insertParts pat h child rest
      match n with
      | .mk c hdl p ip iw pn => .mk (assocPut c key child') hdl p ip iw pn

/-- Path/pattern normalization shared verbatim by `AddRoute` and
`HandleRequest`: ensure a leading `/`, strip a trailing `/` unless the whole
string is `/` (Go `len` is bytes; paths here are ASCII so character count
agrees). -/
def normalize (p : String) : String :=
  let p1 := if goStartsWith p "/" then p else "/" ++ p
  if 1 < p1.data.length ∧ goEndsWith p1 "/" = true then String.mk p1.data.dropLast else p1

/-- `parts := strings.Split(pattern, "/"); if parts[0] == "" { parts = parts[1:] }`. -/
def splitParts (p : String) : List String :=
  match goSplit p with
  | "" :: rest => rest
  | parts => parts

/-- `StandardRouter.trees`: one trie root per HTTP method. -/
def Router := List (String × Node)

/-- `AddRoute(method, pattern, handler)`: create the method's tree if missing,
normalize the pattern, split it, and insert along the segments. -/
def addRoute (r : Router) (method pat0 : String) (h : Nat) : Router :=
  let r1 :=
    match assocGet r method with
    | some _ => r
    | none => assocPut r method newNode
  let pat := normalize pat0
  let parts := splitParts pat
  match assocGet r1 method with
  | some root => assocPut r1 method (insertParts pat h root parts)
  | none => r1

/-- `matchRoute(node, parts, params)`: try the exact static child first,
recursing; if that subtree yields no match, try the parameter child (recording
the consumed segment under its `paramName` in the shared params map — a write
that persists even if this branch later fails); if that yields no match, a
wildcard child with a handler matches terminally.  Returns the matched handler
(`none` = no match) together with the final state of the shared params map. -/
def matchRoute : Node → List String → List (String × String) →
    Option Nat × List (String × String)
  | n, [], params => (n.handler, params)
  | n, part :: rest, params =>
    let stat :=
      match assocGet n.children part with
      | some child => matchRoute child rest params
      | none => (none, params)
    match stat with
    | (some h, p) => (some h, p)
    | (none, p) =>
      let par :=
        match assocGet n.children ":" with
        | some child =>
          let p1 := if child.paramName = "" then p else assocPut p child.paramName part
          matchRoute child rest p1
        | none => (none, p)
      match par with
      | (some h, p2) => (some h, p2)
      | (none, p2) =>
        match assocGet n.children "*" with
        | some child => if child.handler.isSome then (child.handler, p2) else (none, p2)
        | none => (none, p2)

/-- `HandleRequest`: normalize the path, look up the method's tree, match, and
on success return the handler together with the params copied into the context
(`c.SetParam(k, v)` for every binding); `none` models the `false` return. -/
def handleRequest (r : Router) (method path0 : String) :
    Option (Nat × List (String × String)) :=
  let path := normalize path0
  match assocGet r method with
  | none => none
  | some root =>
    match matchRoute root (splitParts path) [] with
    | (some h, params) => some (h, params)
    | (none, _) => none

/-! ## Middleware chains and the middleware manager (MiddlewareChain / MiddlewareManager) -/

/-- The per-request context a `cyber.HandlerFunc` mutates, reduced to the part
observable by ordering arguments: a trace of events appended as pre/post logic
and handlers run. -/
abbrev Ctx := List Int

/-- `HandlerFunc func(*Context)` as a context transformer. -/
abbrev HandlerFn := Ctx → Ctx

/-- `Middleware func(HandlerFunc) HandlerFunc`. -/
abbrev Mw := HandlerFn → HandlerFn

/-- `MiddlewareChain.Apply(handler)`: the loop
`for i: middleware := mc.middlewares[len-1-i]; handler = middleware(handler)`,
i.e. a left fold over the reversed slice. -/
def applyChain (ms : List Mw) (h : HandlerFn) : HandlerFn :=
  ms.reverse.foldl (fun acc m => m acc) h

/-- A trace-recording middleware used to observe execution order: pre-logic
appends `+i`, then the inner handler runs, then post-logic appends `-i`. -/
def traceMw (i : Int) : Mw :=
  fun next c => next (c ++ [i]) ++ [-i]

/-- A trace-recording terminal handler: appends `0`. -/
def traceH : HandlerFn := fun c => c ++ [0]

/-- `MiddlewareManager`: the global chain, the group chains and the per-route
chains.  Chains are lists of middleware identity tags (only membership and
order matter here).  `groupChains` is the content of the Go
`map[string]*MiddlewareChain` listed in the iteration order the `range` loop
of `GetMiddlewareChain` observes; association lists that are permutations of
one another denote the same map state. -/
structure MwManager where
  globalChain : List Nat
  groupChains : List (String × List Nat)
  routeChains : List (String × List (String × List Nat))

/-- The group-prefix test of `GetMiddlewareChain`:
`prefix == "/" || strings.HasPrefix(path, prefix)` — a raw string-prefix
comparison, not a segment-boundary one. -/
def groupMatches (path gp : String) : Bool :=
  (gp = "/" : Bool) || goStartsWith path gp

/-- `GetMiddlewareChain(method, path)`: clone the global chain, append every
group chain whose registered prefix string-matches the path (in the map
iteration order of `groupChains`), then append the exact-route chain. -/
def getMiddlewareChain (mm : MwManager) (method path : String) : List Nat :=
  mm.globalChain
    ++ (mm.groupChains.filter (fun g => groupMatches path g.1)).flatMap (fun g => g.2)
    ++ (match assocGet mm.routeChains method with
        | some mchains => (assocGet mchains path).getD []
        | none => [])

/-! ## Timeout middleware (middleware/timeout_middleware.go) -/

/-- `maxRetries` of `defaultTimeoutConfig`. -/
def maxRetries : Nat := 3

/-- `Timeout` of `defaultTimeoutConfig`, in time units (seconds). -/
def baseTimeout : Nat := 10

/-- `doubleTimeout`: `if timeout < maxTimeout { return 2 * timeout }; return maxTimeout`
with `maxTimeout = 60` time units. -/
def doubleTimeout (t : Nat) : Nat :=
  if t < 60 then 2 * t else 60

/-- How a run of the `Timeout` middleware ends. -/
inductive TOutcome where
  | handlerDone
  | gatewayTimeout (status : Nat) (code : String)
  | loopFellThrough
deriving DecidableEq, Repr

/-- Whether an attempt's handler goroutine finishes before the attempt's
deadline: the handler takes `rt` time units (`none` = it never completes), the
attempt's context expires after `t`. -/
def completesWithin (rt : Option Nat) (t : Nat) : Bool :=
  match rt with
  | some r => r < t
  | none => false

/-- The `for retry < maxRetries` loop of `Timeout`, indexed by the number
`left = maxRetries - retry` of attempts the loop may still make (so the loop
guard `retry < maxRetries` is `left > 0` and the exhaustion test
`retry + 1 == maxRetries` is `left - 1 == 0`): each iteration races the
handler against a `timeout`-bounded context; on completion return (the
handler's own response stands); on expiry either write the 504 `TIMEOUT`
error response when this was the last permitted attempt, or double the
timeout and loop.  Returns the list of per-attempt timeouts used and the
outcome (`loopFellThrough` models the loop exiting by its guard, which is
unreachable from `retry = 0`). -/
def timeoutLoop (rt : Option Nat) (t : Nat) : Nat → List Nat × TOutcome
  | 0 => ([], .loopFellThrough)
  | left + 1 =>
    if completesWithin rt t then ([t], .handlerDone)
    else if left = 0 then ([t], .gatewayTimeout 504 "TIMEOUT")
    else
      let next := timeoutLoop rt (doubleTimeout t) left
      (t :: next.1, next.2)

/-- One full run of the `Timeout` middleware on a handler taking `rt` time
units per attempt. -/
def timeoutRun (rt : Option Nat) : List Nat × TOutcome :=
  timeoutLoop rt baseTimeout maxRetries

/-- Timed model of the same loop for response-write counting: returns the
`(start, timeout)` of every attempt the loop launches (attempt `k+1` starts
when attempt `k`'s context expires) and, when all attempts expire, the time at
which the loop writes the 504 response. -/
def schedLoop (rt : Option Nat) (t now : Nat) : Nat → List (Nat × Nat) × Option Nat
  | 0 => ([], none)
  | left + 1 =>
    if completesWithin rt t then ([(now, t)], none)
    else if left = 0 then ([(now, t)], some (now + t))
    else
      let next := schedLoop rt (doubleTimeout t) (now + t) left
      ((now, t) :: next.1, next.2)

/-- Every response write a run of `Timeout` produces, with its time.  Each
launched attempt's goroutine runs `next(c)` to completion — the code never
cancels it and contains no token check, it only stops waiting — so when the
handler takes `rt = some r` time units, the goroutine started at `s` writes
the handler's response at `s + r`; the timeout path writes its 504 at the
final expiry when all attempts time out. -/
def respWrites (rt : Option Nat) : List (String × Nat) :=
  let sched := schedLoop rt baseTimeout 0 maxRetries
  (match rt with
   | some r => sched.1.map (fun a => ("handler", a.1 + r))
   | none => []) ++
  (match sched.2 with
   | some e => [("504 TIMEOUT", e)]
   | none => [])

/-! ## Theorems -/

/-- A permutation of a list with at most one element is that list. -/
theorem perm_eq_of_length_le_one {α : Type} {l1 l2 : List α}
    (hp : l1.Perm l2) (hl : l1.length ≤ 1) : l1 = l2 := by
  match l1, hl with
  | [], _ => exact (hp.symm.eq_nil).symm
  | [a], _ => exact List.singleton_perm.mp hp
  | a :: b :: t, hl => simp at hl

/-- C1: matching tries the exact static child first and keeps its result
whenever that subtree matches (static > parameter > wildcard); concretely,
with both `/users/profile` and `/users/:id` registered, `/users/profile`
resolves to the static handler, and with the dead-ending static branch
`/users/profile/edit` registered alongside `/users/:id`, `/users/profile`
still resolves through the parameter branch (exhaustive backtracking). -/
theorem static_precedence_with_backtracking :
    (∀ (n child : Node) (part : String) (rest : List String)
        (params : List (String × String)),
      assocGet n.children part = some child →
      (matchRoute child rest params).1.isSome = true →
      matchRoute n (part :: rest) params = matchRoute child rest params) ∧
    handleRequest (addRoute (addRoute [] "GET" "/users/profile" 1) "GET" "/users/:id" 2)
        "GET" "/users/profile" = some (1, []) ∧
    handleRequest (addRoute (addRoute [] "GET" "/users/profile/edit" 1) "GET" "/users/:id" 2)
        "GET" "/users/profile" = some (2, [("id", "profile")]) := by
  refine ⟨?_, by decide, by decide⟩
  intro n child part rest params hget hsome
  rcases hm : matchRoute child rest params with ⟨o, p⟩
  cases o with
  | none => rw [hm] at hsome; simp at hsome
  | some h => simp [matchRoute, hget, hm]

/-- Witness for C1: the static-first branch applied to a one-child trie. -/
theorem static_precedence_with_backtracking_witness :
    matchRoute (Node.mk [("a", Node.mk [] (some 5) "" false false "")] none "" false false "")
      ["a"] [] = (some 5, []) := by
  have h := static_precedence_with_backtracking.1
    (Node.mk [("a", Node.mk [] (some 5) "" false false "")] none "" false false "")
    (Node.mk [] (some 5) "" false false "") "a" [] [] rfl rfl
  rw [h]; rfl

/-- C2 (failing input): `GetMiddlewareChain` compares group prefixes with
`strings.HasPrefix` on raw strings, so a group registered under `/user`
(carrying middleware `9`) IS applied to the path `/username/5`, contradicting
the segment-boundary requirement. -/
theorem group_user_chain_applied_to_username :
    getMiddlewareChain ⟨[], [("/user", [9])], []⟩ "GET" "/username/5" = [9] ∧
    goStartsWith "/username/5" "/user" = true := by decide

/-- C3: under the default config (base 10, max 3 attempts, doubling capped at
60), a handler that never finishes within an attempt's deadline causes exactly
three attempts with strictly increasing timeouts 10, 20, 40 and a single 504
response with code `TIMEOUT`; a handler finishing before the base deadline
yields its own response after exactly one attempt. -/
theorem timeout_attempt_schedule (rt : Option Nat) :
    ((completesWithin rt 10 = false ∧ completesWithin rt 20 = false ∧
        completesWithin rt 40 = false) →
      timeoutRun rt = ([10, 20, 40], .gatewayTimeout 504 "TIMEOUT") ∧
      List.Pairwise (· < ·) [10, 20, 40] ∧
      20 = doubleTimeout 10 ∧ 40 = doubleTimeout 20) ∧
    (completesWithin rt 10 = true → timeoutRun rt = ([10], .handlerDone)) := by
  constructor
  · rintro ⟨h1, h2, h3⟩
    refine ⟨?_, by decide, by decide, by decide⟩
    simp [timeoutRun, timeoutLoop, maxRetries, baseTimeout, doubleTimeout, h1, h2, h3]
  · intro h1
    simp [timeoutRun, timeoutLoop, maxRetries, baseTimeout, h1]

/-- Witness for C3: a never-finishing handler and a 5-unit handler. -/
theorem timeout_attempt_schedule_witness :
    timeoutRun none = ([10, 20, 40], .gatewayTimeout 504 "TIMEOUT") ∧
    timeoutRun (some 5) = ([10], .handlerDone) :=
  ⟨((timeout_attempt_schedule none).1 ⟨rfl, rfl, rfl⟩).1,
    (timeout_attempt_schedule (some 5)).2 rfl⟩

/-- C4 (failing input): `doubleTimeout` caps only inputs that already reached
60, so at 59 time units it returns 118, above the stated 60-unit maximum its
own comment promises. -/
theorem doubleTimeout_exceeds_cap :
    doubleTimeout 59 = 118 ∧ 60 < doubleTimeout 59 := by decide

/-- C5 (counterexample): the group chains are appended while ranging over a Go
map, so two iteration orders of the same map contents — the two lists below
are permutations of each other — yield different middleware orders for the
same (method, path): resolution order is not deterministic. -/
theorem group_iteration_order_dependent :
    List.Perm [("/a", [1]), ("/a/b", [2])] [("/a/b", [2]), ("/a", [1])] ∧
    getMiddlewareChain ⟨[0], [("/a", [1]), ("/a/b", [2])], []⟩ "GET" "/a/b/c" ≠
      getMiddlewareChain ⟨[0], [("/a/b", [2]), ("/a", [1])], []⟩ "GET" "/a/b/c" := by
  exact ⟨by decide, by decide⟩

/-- C5 (amended): re-resolution is deterministic whenever at most one
registered group prefix matches the path — any two iteration orders of the
same group map then produce the same effective chain (global, then the unique
matching group chain, then the route chain). -/
theorem getMiddlewareChain_deterministic_of_single_match
    (gl : List Nat) (g1 g2 : List (String × List Nat))
    (rc : List (String × List (String × List Nat))) (method path : String)
    (hp : g1.Perm g2)
    (hone : (g1.filter (fun g => groupMatches path g.1)).length ≤ 1) :
    getMiddlewareChain ⟨gl, g1, rc⟩ method path
      = getMiddlewareChain ⟨gl, g2, rc⟩ method path := by
  have hf : g1.filter (fun g => groupMatches path g.1)
      = g2.filter (fun g => groupMatches path g.1) :=
    perm_eq_of_length_le_one (hp.filter _) hone
  simp [getMiddlewareChain, hf]

/-- Witness for amended C5: two iteration orders with a single matching group. -/
theorem getMiddlewareChain_deterministic_of_single_match_witness :
    getMiddlewareChain ⟨[], [("/a", [1]), ("/b", [2])], []⟩ "GET" "/a/x"
      = getMiddlewareChain ⟨[], [("/b", [2]), ("/a", [1])], []⟩ "GET" "/a/x" :=
  getMiddlewareChain_deterministic_of_single_match [] _ _ [] "GET" "/a/x"
    (by decide) (by decide)

/-- C6: `Chain.Apply` — a left fold over the reversed middleware slice —
equals the nested right fold `m1 (m2 (... (mn h)))`, so the first-registered
middleware is outermost; concretely, two trace middlewares around a traced
handler produce pre-logic in registration order and post-logic in reverse
(onion order). -/
theorem applyChain_onion_composition :
    (∀ (ms : List Mw) (h : HandlerFn),
      applyChain ms h = ms.foldr (fun m acc => m acc) h) ∧
    applyChain [traceMw 1, traceMw 2] traceH [] = [1, 2, 0, -2, -1] := by
  refine ⟨?_, rfl⟩
  intro ms h
  simp [applyChain, List.foldl_reverse]

/-- Witness for C6: the fold equality at a concrete one-element chain. -/
theorem applyChain_onion_composition_witness :
    applyChain [traceMw 3] traceH = [traceMw 3].foldr (fun m acc => m acc) traceH :=
  applyChain_onion_composition.1 [traceMw 3] traceH

/-- C7: with only `/users/:id` registered, `/users/42` matches and binds
exactly `id ↦ "42"`, the consumed segment verbatim. -/
theorem param_route_binding_users_42 :
    handleRequest (addRoute [] "GET" "/users/:id" 7) "GET" "/users/42"
      = some (7, [("id", "42")]) := by decide

/-- C8 (failing input): a handler that writes its response 100 time units
after each attempt starts.  All three attempts (started at 0, 10, 30) expire,
the timeout path writes the 504 at time 70, and the three abandoned goroutines
still write the handler response at times 100, 110, 130 — four writes to the
same response, three of them after the 504. -/
theorem timeout_double_write_after_504 :
    respWrites (some 100)
      = [("handler", 100), ("handler", 110), ("handler", 130), ("504 TIMEOUT", 70)] ∧
    1 < (respWrites (some 100)).length := by decide

/-- C9: registering the root pattern `/` creates the method's tree but never
attaches the handler to any node (the lone empty segment is skipped), so a
subsequent request for `/` reports not-found — for every method and handler. -/
theorem root_pattern_registers_no_handler (method : String) (h : Nat) :
    addRoute [] method "/" h = [(method, newNode)] ∧
    handleRequest (addRoute [] method "/" h) method "/" = none := by
  have hnorm : normalize "/" = "/" := rfl
  have hsplit : splitParts "/" = [""] := rfl
  constructor
  · simp [addRoute, hnorm, hsplit, assocGet, assocPut, insertParts]
  · simp [addRoute, handleRequest, hnorm, hsplit, assocGet, assocPut, insertParts,
      matchRoute, newNode, Node.children, Node.handler]

/-- Witness for C9: the root registration at method GET and handler 99. -/
theorem root_pattern_registers_no_handler_witness :
    handleRequest (addRoute [] "GET" "/" 99) "GET" "/" = none :=
  (root_pattern_registers_no_handler "GET" 99).2

/-- C10: with `/files/:name/meta` and `/files/*` registered, `/files/abc/body`
matches through the wildcard, yet the returned params still carry the binding
`name ↦ "abc"` written during the failed parameter branch: the shared params
map is not restored on backtracking. -/
theorem wildcard_match_keeps_stale_param :
    handleRequest (addRoute (addRoute [] "GET" "/files/:name/meta" 1) "GET" "/files/*" 2)
      "GET" "/files/abc/body" = some (2, [("name", "abc")]) := by decide

end Cyber
